import Mathlib

/-!
Verification of the ingestion and aggregation core of the pyrrhos
web-analytics server (Go sources under `server/`).  The Go functions are
shallowly embedded as executable Lean definitions: the payload codec
(`decodeData` over base64 + JSON), the client-address resolver
(`ipFromRequest`), the geolocation client (`getGeoInfo`), the ingest
handler (`track`), the batching queue (`InsertEvents` and the consumer
loop of `InitQueue`), the day-bucket encoder (`nowToInt`) and the stats
handler (`ViewStats`).  External effects (HTTP oracle, user-agent
library, URL parser, clock, ClickHouse writer) are passed in as explicit
parameters.
-/

namespace Pyrrhos

/-! ## JSON values and a parser modelling Go `encoding/json`

`Json.num` keeps the raw numeral text: the core never interprets numeric
fields, so no floating-point semantics are needed.  Bytes of the decoded
payload are mapped to chars one-for-one (the JSON syntax is ASCII; only
string contents with multi-byte UTF-8 would differ, and no claim depends
on those). -/

inductive Json where
  | null
  | bool (b : Bool)
  | num (raw : List Char)
  | str (s : String)
  | arr (elems : List Json)
  | obj (members : List (String × Json))
deriving Inhabited

def isJsonWs (c : Char) : Bool :=
  c == ' ' || c == '\t' || c == '\n' || c == '\r'

def dropWs (cs : List Char) : List Char :=
  cs.dropWhile isJsonWs

def hexVal (c : Char) : Option Nat :=
  let n := c.toNat
  if 48 ≤ n ∧ n ≤ 57 then some (n - 48)
  else if 97 ≤ n ∧ n ≤ 102 then some (n - 87)
  else if 65 ≤ n ∧ n ≤ 70 then some (n - 55)
  else none

def escChar (e : Char) : Option Char :=
  if e = '"' then some '"'
  else if e = '\\' then some '\\'
  else if e = '/' then some '/'
  else if e = 'b' then some (Char.ofNat 8)
  else if e = 'f' then some (Char.ofNat 12)
  else if e = 'n' then some '\n'
  else if e = 'r' then some '\r'
  else if e = 't' then some '\t'
  else none

/-- Parse the remainder of a JSON string literal (the opening quote is
already consumed); returns the decoded characters and the rest of the
input.  Unescaped control characters are rejected, as in Go. -/
def parseStringChars : List Char → Option (List Char × List Char)
  | [] => none
  | c :: rest =>
    if c = '"' then some ([], rest)
    else if c = '\\' then
      match rest with
      | 'u' :: h1 :: h2 :: h3 :: h4 :: rest4 =>
        match hexVal h1, hexVal h2, hexVal h3, hexVal h4 with
        | some a, some b, some c2, some d =>
          (parseStringChars rest4).map
            (fun p => (Char.ofNat (a * 4096 + b * 256 + c2 * 16 + d) :: p.1, p.2))
        | _, _, _, _ => none
      | e :: rest2 =>
        match escChar e with
        | some ch => (parseStringChars rest2).map (fun p => (ch :: p.1, p.2))
        | none => none
      | [] => none
    else if c.toNat < 32 then none
    else (parseStringChars rest).map (fun p => (c :: p.1, p.2))

/-- Parse a JSON numeral; returns its raw text and the rest of the input. -/
def parseNumberChars (cs : List Char) : Option (List Char × List Char) :=
  let sr : List Char × List Char :=
    match cs with
    | '-' :: t => (['-'], t)
    | _ => ([], cs)
  match sr.2 with
  | [] => none
  | c :: rest1 =>
    if c.isDigit then
      let ipr : List Char × List Char :=
        if c = '0' then ([c], rest1)
        else (c :: rest1.takeWhile Char.isDigit, rest1.dropWhile Char.isDigit)
      let fracRes : Option (List Char × List Char) :=
        match ipr.2 with
        | '.' :: t =>
          let ds := t.takeWhile Char.isDigit
          if ds.isEmpty then none else some ('.' :: ds, t.dropWhile Char.isDigit)
        | other => some ([], other)
      match fracRes with
      | none => none
      | some (fp, cs3) =>
        let expRes : Option (List Char × List Char) :=
          match cs3 with
          | e :: t =>
            if e = 'e' ∨ e = 'E' then
              let er : List Char × List Char :=
                match t with
                | '+' :: u => ([e, '+'], u)
                | '-' :: u => ([e, '-'], u)
                | _ => ([e], t)
              let ds := er.2.takeWhile Char.isDigit
              if ds.isEmpty then none
              else some (er.1 ++ ds, er.2.dropWhile Char.isDigit)
            else some ([], cs3)
          | [] => some ([], cs3)
        match expRes with
        | none => none
        | some (ep, cs4) => some (sr.1 ++ ipr.1 ++ fp ++ ep, cs4)
    else none

mutual

/-- Parse one JSON value.  The fuel argument only bounds recursion depth;
`cs.length + 1` is always sufficient since every recursive call consumes
at least one character. -/
def parseValue : Nat → List Char → Option (Json × List Char)
  | 0, _ => none
  | fuel + 1, cs0 =>
    match dropWs cs0 with
    | [] => none
    | c :: rest =>
      if c = Char.ofNat 123 then
        match dropWs rest with
        | c2 :: rest2 =>
          if c2 = Char.ofNat 125 then some (.obj [], rest2)
          else parseMembers fuel (c2 :: rest2) []
        | [] => none
      else if c = '[' then
        match dropWs rest with
        | c2 :: rest2 =>
          if c2 = ']' then some (.arr [], rest2)
          else parseElems fuel (c2 :: rest2) []
        | [] => none
      else if c = '"' then
        (parseStringChars rest).map (fun p => (.str (String.mk p.1), p.2))
      else if c = 't' then
        match rest with
        | 'r' :: 'u' :: 'e' :: r2 => some (.bool true, r2)
        | _ => none
      else if c = 'f' then
        match rest with
        | 'a' :: 'l' :: 's' :: 'e' :: r2 => some (.bool false, r2)
        | _ => none
      else if c = 'n' then
        match rest with
        | 'u' :: 'l' :: 'l' :: r2 => some (.null, r2)
        | _ => none
      else
        (parseNumberChars (c :: rest)).map (fun p => (.num p.1, p.2))

/-- Parse the members of a non-empty JSON object (after the brace). -/
def parseMembers : Nat → List Char → List (String × Json) → Option (Json × List Char)
  | 0, _, _ => none
  | fuel + 1, cs, acc =>
    match dropWs cs with
    | '"' :: rest =>
      match parseStringChars rest with
      | none => none
      | some (keyChars, rest2) =>
        match dropWs rest2 with
        | ':' :: rest3 =>
          match parseValue fuel rest3 with
          | none => none
          | some (v, rest4) =>
            let acc2 := acc ++ [(String.mk keyChars, v)]
            match dropWs rest4 with
            | ',' :: rest5 => parseMembers fuel rest5 acc2
            | c :: rest5 =>
              if c = Char.ofNat 125 then some (.obj acc2, rest5) else none
            | [] => none
        | _ => none
    | _ => none

/-- Parse the elements of a non-empty JSON array (after the bracket). -/
def parseElems : Nat → List Char → List Json → Option (Json × List Char)
  | 0, _, _ => none
  | fuel + 1, cs, acc =>
    match parseValue fuel cs with
    | none => none
    | some (v, rest) =>
      let acc2 := acc ++ [v]
      match dropWs rest with
      | ',' :: rest2 => parseElems fuel rest2 acc2
      | ']' :: rest2 => some (.arr acc2, rest2)
      | _ => none

end

/-- `json.Unmarshal` input handling: exactly one value, with only
whitespace allowed after it. -/
def parseTop (cs : List Char) : Option Json :=
  match parseValue (cs.length + 1) cs with
  | some (v, rest) => if (dropWs rest).isEmpty then some v else none
  | none => none

/-- `json.Decoder.Decode` input handling: the first value is decoded and
anything after it is left for a later read (so trailing garbage is not an
error), mirroring the geo client's use of a streaming decoder. -/
def parseFirstValue (cs : List Char) : Option Json :=
  (parseValue (cs.length + 1) cs).map (fun p => p.1)

/-! ## The wire structs of `db.go` / the `repository` package -/

/-- Go struct `TrackingData` (the inner `tracking` block).  Field tags:
`type`, `identity`, `ua`, `event`, `category`, `referrer`, `isTouch`;
`ReferrerHost` has no tag and is matched by its field name. -/
structure TrackingData where
  type : String := ""
  identity : String := ""
  userAgent : String := ""
  event : String := ""
  category : String := ""
  referrer : String := ""
  referrerHost : String := ""
  isTouchDevice : Bool := false
deriving Repr, DecidableEq, Inhabited

/-- Go struct `Tracking` (the outer envelope): tags `site_id`, `tracking`. -/
structure Tracking where
  siteID : String := ""
  action : TrackingData := {}
deriving Repr, DecidableEq, Inhabited

/-- Go struct `GeoInfo`.  `latitude`/`longitude` are `float64` in Go;
they are modelled as the raw numeral text since the core never reads
them (only `country` and `region_name` are used). -/
structure GeoInfo where
  ip : String := ""
  country : String := ""
  countryISO : String := ""
  regionName : String := ""
  regionCode : String := ""
  city : String := ""
  latitude : List Char := []
  longitude : List Char := []
deriving Repr, DecidableEq, Inhabited

/-! ## `json.Unmarshal` into the structs

Go's object decoding matches keys against field tags case-insensitively
(`strings.EqualFold`; modelled as ASCII lowercase comparison), ignores
unknown keys, leaves a field unchanged on JSON `null`, records a type
error on a mismatched value but keeps decoding, and returns the first
recorded error.  A missing key is NOT an error: the field keeps its zero
value. -/

def lowerAscii (s : String) : String :=
  String.mk (s.data.map Char.toLower)

def keepErr (a b : Option String) : Option String :=
  match a with
  | some e => some e
  | none => b

def setStr {α : Type} (v : Json) (cur : α) (set : String → α)
    (err : Option String) : α × Option String :=
  match v with
  | .str s => (set s, err)
  | .null => (cur, err)
  | _ => (cur, keepErr err (some "json: cannot unmarshal value into string field"))

def setBool {α : Type} (v : Json) (cur : α) (set : Bool → α)
    (err : Option String) : α × Option String :=
  match v with
  | .bool b => (set b, err)
  | .null => (cur, err)
  | _ => (cur, keepErr err (some "json: cannot unmarshal value into bool field"))

def setNum {α : Type} (v : Json) (cur : α) (set : List Char → α)
    (err : Option String) : α × Option String :=
  match v with
  | .num raw => (set raw, err)
  | .null => (cur, err)
  | _ => (cur, keepErr err (some "json: cannot unmarshal value into float64 field"))

def setActionField (st : TrackingData × Option String) (kv : String × Json) :
    TrackingData × Option String :=
  let r := st.1
  let err := st.2
  let key := lowerAscii kv.1
  if key = "type" then setStr kv.2 r (fun s => { r with type := s }) err
  else if key = "identity" then setStr kv.2 r (fun s => { r with identity := s }) err
  else if key = "ua" then setStr kv.2 r (fun s => { r with userAgent := s }) err
  else if key = "event" then setStr kv.2 r (fun s => { r with event := s }) err
  else if key = "category" then setStr kv.2 r (fun s => { r with category := s }) err
  else if key = "referrer" then setStr kv.2 r (fun s => { r with referrer := s }) err
  else if key = "referrerhost" then setStr kv.2 r (fun s => { r with referrerHost := s }) err
  else if key = "istouch" then setBool kv.2 r (fun b => { r with isTouchDevice := b }) err
  else (r, err)

def unmarshalActionInto (v : Json) (cur : TrackingData) :
    TrackingData × Option String :=
  match v with
  | .null => (cur, none)
  | .obj kvs => kvs.foldl setActionField (cur, none)
  | _ => (cur, some "json: cannot unmarshal value into TrackingData field")

def setTrackingField (st : Tracking × Option String) (kv : String × Json) :
    Tracking × Option String :=
  let r := st.1
  let err := st.2
  let key := lowerAscii kv.1
  if key = "site_id" then setStr kv.2 r (fun s => { r with siteID := s }) err
  else if key = "tracking" then
    let ar := unmarshalActionInto kv.2 r.action
    ({ r with action := ar.1 }, keepErr err ar.2)
  else (r, err)

/-- `json.Unmarshal(b, &data)` for `data : Tracking`: a non-object,
non-null top level is a type error; an object is decoded field by field;
`null` leaves the zero value and succeeds. -/
def unmarshalTracking (v : Json) : Except String Tracking :=
  match v with
  | .null => .ok {}
  | .obj kvs =>
    let st := kvs.foldl setTrackingField ({}, none)
    match st.2 with
    | some e => .error e
    | none => .ok st.1
  | _ => .error "json: cannot unmarshal value into Go value of type Tracking"

def setGeoField (st : GeoInfo × Option String) (kv : String × Json) :
    GeoInfo × Option String :=
  let r := st.1
  let err := st.2
  let key := lowerAscii kv.1
  if key = "ip" then setStr kv.2 r (fun s => { r with ip := s }) err
  else if key = "country" then setStr kv.2 r (fun s => { r with country := s }) err
  else if key = "country_iso" then setStr kv.2 r (fun s => { r with countryISO := s }) err
  else if key = "region_name" then setStr kv.2 r (fun s => { r with regionName := s }) err
  else if key = "region_code" then setStr kv.2 r (fun s => { r with regionCode := s }) err
  else if key = "city" then setStr kv.2 r (fun s => { r with city := s }) err
  else if key = "latitude" then setNum kv.2 r (fun n => { r with latitude := n }) err
  else if key = "longitude" then setNum kv.2 r (fun n => { r with longitude := n }) err
  else (r, err)

def unmarshalGeoInfo (v : Json) : Except String GeoInfo :=
  match v with
  | .null => .ok {}
  | .obj kvs =>
    let st := kvs.foldl setGeoField ({}, none)
    match st.2 with
    | some e => .error e
    | none => .ok st.1
  | _ => .error "json: cannot unmarshal value into Go value of type GeoInfo"

/-! ## base64 (Go `encoding/base64` `StdEncoding.DecodeString`)

Standard alphabet with mandatory padding; `\r` and `\n` are ignored;
any other character outside the alphabet, a length that is not a
multiple of 4, or padding anywhere but the end is an error.  (Go's
default decoder does not check that unused trailing bits are zero, and
neither does this model.) -/

def b64Val (c : Char) : Option Nat :=
  let n := c.toNat
  if 65 ≤ n ∧ n ≤ 90 then some (n - 65)
  else if 97 ≤ n ∧ n ≤ 122 then some (n - 71)
  else if 48 ≤ n ∧ n ≤ 57 then some (n + 4)
  else if c = '+' then some 62
  else if c = '/' then some 63
  else none

def base64DecodeQuads : List Char → Except String (List Nat)
  | [] => .ok []
  | c0 :: c1 :: c2 :: c3 :: rest =>
    match b64Val c0, b64Val c1 with
    | some v0, some v1 =>
      if c2 = '=' then
        if c3 = '=' ∧ rest = [] then .ok [v0 * 4 + v1 / 16]
        else .error "illegal base64 data"
      else
        match b64Val c2 with
        | some v2 =>
          if c3 = '=' then
            if rest = [] then .ok [v0 * 4 + v1 / 16, (v1 % 16) * 16 + v2 / 4]
            else .error "illegal base64 data"
          else
            match b64Val c3 with
            | some v3 =>
              match base64DecodeQuads rest with
              | .ok bs =>
                .ok ((v0 * 4 + v1 / 16) :: ((v1 % 16) * 16 + v2 / 4) ::
                     ((v2 % 4) * 64 + v3) :: bs)
              | .error e => .error e
            | none => .error "illegal base64 data"
        | none => .error "illegal base64 data"
    | _, _ => .error "illegal base64 data"
  | _ => .error "illegal base64 data"

def base64Decode (cs : List Char) : Except String (List Nat) :=
  base64DecodeQuads (cs.filter (fun c => c != '\r' && c != '\n'))

/-! ## `decodeData` (tracking/requests.go) -/

/-- `decodeData(raw)`: base64-decode the query parameter, then
`json.Unmarshal` the bytes into a `Tracking` value.  Mirrors the Go
function: the only checks are the ones base64 and `json.Unmarshal`
perform — in particular a well-formed object missing `site_id` or
`tracking` decodes successfully to zero values. -/
def decodeData (raw : String) : Except String Tracking :=
  match base64Decode raw.data with
  | .error e => .error e
  | .ok bytes =>
    match parseTop (bytes.map Char.ofNat) with
    | none => .error "json: syntax error"
    | some v => unmarshalTracking v

/-! ## HTTP headers (Go `net/http` / `net/textproto`) -/

/-- One character step of `CanonicalMIMEHeaderKey`: uppercase at the start
and after a hyphen, lowercase elsewhere. -/
def canonChar (upper : Bool) (c : Char) : Char :=
  if upper then
    if 'a' ≤ c ∧ c ≤ 'z' then Char.ofNat (c.toNat - 32) else c
  else
    if 'A' ≤ c ∧ c ≤ 'Z' then Char.ofNat (c.toNat + 32) else c

def canonChars : Bool → List Char → List Char
  | _, [] => []
  | upper, c :: rest => canonChar upper c :: canonChars (c = '-') rest

/-- Characters allowed in a MIME header token (Go's `isTokenTable`). -/
def isTokenChar (c : Char) : Bool :=
  let n := c.toNat
  decide ((48 ≤ n ∧ n ≤ 57) ∨ (65 ≤ n ∧ n ≤ 90) ∨ (97 ≤ n ∧ n ≤ 122) ∨
    n = 33 ∨ n = 35 ∨ n = 36 ∨ n = 37 ∨ n = 38 ∨ n = 39 ∨ n = 42 ∨
    n = 43 ∨ n = 45 ∨ n = 46 ∨ n = 94 ∨ n = 95 ∨ n = 96 ∨ n = 124 ∨ n = 126)

/-- Go `http.CanonicalHeaderKey`: canonicalize the case of a valid header
token; return an invalid one unchanged. -/
def canonicalHeaderKey (s : String) : String :=
  if s.data.all isTokenChar then String.mk (canonChars true s.data) else s

/-- A request's header set; `get` mirrors `http.Header.Get`, which
canonicalizes the lookup key (header names on the wire are stored
canonicalized, so both sides are canonicalized here).  A missing header
yields the empty string. -/
def headerGet (hs : List (String × String)) (name : String) : String :=
  match hs.find? (fun p => canonicalHeaderKey p.1 == canonicalHeaderKey name) with
  | some p => p.2
  | none => ""

/-! ## IP parsing (Go `net.ParseIP`, `net.SplitHostPort`) -/

/-- A parsed `net.IP`.  IPv6 addresses are kept as their raw (validated)
text; the core only ever turns the address back into a string for the geo
lookup, and no claim depends on IPv6 canonical re-formatting. -/
inductive IP where
  | v4 (a b c d : Nat)
  | v6 (raw : String)
deriving Repr, DecidableEq, Inhabited

/-- One dotted-quad field: 1-3 digits, value ≤ 255, no leading zero
(Go rejects leading zeros in IPv4 fields). -/
def v4Field (cs : List Char) : Option Nat :=
  match cs with
  | [] => none
  | c :: rest =>
    if ¬ (cs.all Char.isDigit) then none
    else if c = '0' ∧ rest ≠ [] then none
    else
      let n := cs.foldl (fun acc d => acc * 10 + (d.toNat - 48)) 0
      if cs.length ≤ 3 ∧ n ≤ 255 then some n else none

def splitOn (sep : Char) (cs : List Char) : List (List Char) :=
  match cs with
  | [] => [[]]
  | c :: rest =>
    let r := splitOn sep rest
    if c = sep then [] :: r
    else
      match r with
      | f :: more => (c :: f) :: more
      | [] => [[c]]

def parseIPv4 (cs : List Char) : Option IP :=
  match (splitOn '.' cs).mapM v4Field with
  | some [a, b, c, d] => some (.v4 a b c d)
  | _ => none

def isHexDigitCh (c : Char) : Bool := (hexVal c).isSome

/-- Syntactic IPv6 check: hex groups of 1-4 digits separated by `:`, at
most one `::` abbreviation, exactly 8 groups without it and fewer with
it, with an optional trailing dotted quad taking the place of the last
two groups. -/
def v6Groups (gs : List (List Char)) : Option Nat :=
  match gs with
  | [] => some 0
  | [g] =>
    if g.all isHexDigitCh ∧ 1 ≤ g.length ∧ g.length ≤ 4 then some 1
    else if (parseIPv4 g).isSome then some 2
    else none
  | g :: rest =>
    if g.all isHexDigitCh ∧ 1 ≤ g.length ∧ g.length ≤ 4 then
      (v6Groups rest).map (· + 1)
    else none

/-- Syntactic model of Go's IPv6 grammar: either eight groups, or a
single `::` abbreviation with at most seven groups around it (an
embedded trailing dotted quad counts as two groups).  The raw text of an
accepted address is kept as the parsed value. -/
def parseIPv6 (cs : List Char) : Option IP :=
  let s := String.mk cs
  match s.splitOn "::" with
  | [_] =>
    match v6Groups (splitOn ':' cs) with
    | some n => if n = 8 then some (.v6 s) else none
    | none => none
  | [l, r] =>
    let lgs := if l.isEmpty then [] else splitOn ':' l.data
    let rgs := if r.isEmpty then [] else splitOn ':' r.data
    match v6Groups lgs, v6Groups rgs with
    | some nl, some nr => if nl + nr ≤ 7 then some (.v6 s) else none
    | _, _ => none
  | _ => none

/-- Go `net.ParseIP`: the first `.` or `:` encountered decides between
the IPv4 and IPv6 grammar; anything else fails. -/
def parseIP (s : String) : Option IP :=
  match s.data.find? (fun c => c == '.' || c == ':') with
  | some c => if c = '.' then parseIPv4 s.data else parseIPv6 s.data
  | none => none

def ipString : IP → String
  | .v4 a b c d =>
    toString a ++ "." ++ toString b ++ "." ++ toString c ++ "." ++ toString d
  | .v6 raw => raw

def lastIdxOf (sep : Char) (cs : List Char) : Option Nat :=
  match cs.reverse.findIdx? (fun c => c == sep) with
  | some i => some (cs.length - 1 - i)
  | none => none

/-- Go `net.SplitHostPort`, restricted to the host result: split at the
last colon; a bracketed host `[h]:p` loses its brackets; no colon at all,
stray colons in an unbracketed host, or malformed brackets are errors. -/
def splitHostPort (s : String) : Except String String :=
  let cs := s.data
  match lastIdxOf ':' cs with
  | none => .error "missing port in address"
  | some i =>
    let host := cs.take i
    let port := cs.drop (i + 1)
    if port.contains ':' then .error "too many colons in address"
    else
      match host with
      | '[' :: inner =>
        if inner.getLast? = some ']' then .ok (String.mk (inner.dropLast))
        else .error "missing ']' in address"
      | _ =>
        if host.contains ':' then .error "too many colons in address"
        else if host.contains '[' ∨ host.contains ']' then
          .error "unexpected bracket in address"
        else .ok (String.mk host)

/-! ## `ipFromRequest` (tracking/requests.go) -/

/-- The inputs of the HTTP request that the resolver looks at. -/
structure HttpRequest where
  headers : List (String × String)
  remoteAddr : String
deriving Repr, Inhabited

/-- `ipFromForwardedForHeader`: everything before the first comma (the
whole string when there is none). -/
def ipFromForwardedForHeader (v : String) : String :=
  String.mk (v.data.takeWhile (fun c => c != ','))

/-- The header scan loop of `ipFromRequest`: take each name in order,
read it from the request, apply the forwarded-for split only when the
CANONICAL name is exactly "X-Forwarded-For", stop at the first non-empty
result. -/
def scanIPHeaders (r : HttpRequest) : List String → String
  | [] => ""
  | h :: rest =>
    let v := headerGet r.headers h
    let v := if canonicalHeaderKey h = "X-Forwarded-For"
      then ipFromForwardedForHeader v else v
    if v ≠ "" then v else scanIPHeaders r rest

/-- `ipFromRequest(headers, r, overwriteIP)`: scan the given header
names; fall back to the host part of `r.RemoteAddr` (failing hard when
it does not split); only THEN replace the candidate with the override
when one is set; finally the chosen string must parse as an IP. -/
def ipFromRequest (headerNames : List String) (r : HttpRequest)
    (overwriteIP : String) : Except String IP :=
  let remoteIP := scanIPHeaders r headerNames
  let hostRes : Except String String :=
    if remoteIP = "" then splitHostPort r.remoteAddr else .ok remoteIP
  match hostRes with
  | .error e => .error e
  | .ok candidate =>
    let chosen := if overwriteIP.length > 0 then overwriteIP else candidate
    match parseIP chosen with
    | none => .error ("could not parse IP: " ++ chosen)
    | some ip => .ok ip

/-- The header-name list the handler actually passes (note the
misspelled first name, as in the source). -/
def trackHeaderNames : List String := ["X-Forward-For", "X-Real-IP"]

/-! ## `getGeoInfo` (tracking/requests.go) -/

/-- The outcome of the oracle HTTP round trip: either a transport error
or a status code plus body. -/
structure HttpResp where
  status : Nat
  body : String
deriving Repr, Inhabited

/-- `getGeoInfo(ip)` given the oracle's response: a transport error is
returned as-is; otherwise the body is JSON-decoded into `GeoInfo` with a
streaming decoder.  The status code is never inspected (mirroring the
source), so a non-2xx response with a decodable JSON body succeeds. -/
def getGeoInfo (resp : Except String HttpResp) : Except String GeoInfo :=
  match resp with
  | .error e => .error e
  | .ok r =>
    match parseFirstValue r.body.data with
    | none => .error "json: decode error"
    | some v => unmarshalGeoInfo v

/-! ## The ingest handler `track` (tracking/handlers.go)

External collaborators appear as parameters: `uaParse` is the
`useragent.Parse` library function, `urlHost` is `url.Parse` composed
with `.Host` (`none` models a parse error), `geoResp` is the geo
oracle's HTTP response for a given IP string, `overrideIP` is the
`-ip` startup flag stored in `Tracking.IP`. -/

structure UA where
  name : String := ""
  os : String := ""
  device : String := ""
deriving Repr, DecidableEq, Inhabited

/-- The value sent over the queue channel (`QueueData`). -/
structure QueueData where
  geoInfo : GeoInfo
  useragent : UA
  tracking : Tracking
deriving Repr, DecidableEq, Inhabited

/-- Everything observable about one call of the handler: the response
(status and body) and the event handed to `CreateEvent`, if any. -/
structure TrackResult where
  status : Nat
  body : String
  enqueued : Option QueueData
deriving Repr, DecidableEq, Inhabited

/-- `track(w, r)`.  The deferred `w.WriteHeader(http.StatusOK)` runs on
every path and nothing ever writes a body, so every early `return` still
produces an empty 200 response.  `dataParam` models
`r.URL.Query().Get("data")` (the empty string when absent). -/
def track (uaParse : String → UA) (urlHost : String → Option String)
    (geoResp : String → Except String HttpResp) (overrideIP : String)
    (dataParam : String) (r : HttpRequest) : TrackResult :=
  if dataParam = "" then ⟨200, "", none⟩
  else
    match decodeData dataParam with
    | .error _ => ⟨200, "", none⟩
    | .ok trkData =>
      let ua := uaParse trkData.action.userAgent
      match ipFromRequest trackHeaderNames r overrideIP with
      | .error _ => ⟨200, "", none⟩
      | .ok ip =>
        match getGeoInfo (geoResp (ipString ip)) with
        | .error _ => ⟨200, "", none⟩
        | .ok geoInfo =>
          let trkData :=
            if trkData.action.referrer.length > 0 then
              match urlHost trkData.action.referrer with
              | some h => { trkData with action.referrerHost := h }
              | none => trkData
            else trkData
          ⟨200, "", some ⟨geoInfo, ua, trkData⟩⟩

/-! ## Wall-clock time and `nowToInt` (server.go)

A Go `time.Time` as far as `Format("20060102")` is concerned: the
absolute instant (Unix seconds) plus the zone offset of the Time's
location.  `time.Now()` carries the SERVER'S LOCAL zone; formatting
renders the local calendar date. -/

structure GoTime where
  sec : Int
  offset : Int
deriving Repr, DecidableEq, Inhabited

/-- Civil date from a count of days since 1970-01-01 (proleptic
Gregorian; valid for non-negative day counts, i.e. dates from 1970 on). -/
def civilFromDays (z : Nat) : Nat × Nat × Nat :=
  let z := z + 719468
  let era := z / 146097
  let doe := z % 146097
  let yoe := ((doe + doe / 36524) - (doe / 1460 + doe / 146096)) / 365
  let y := yoe + era * 400
  let doy := doe - ((365 * yoe + yoe / 4) - yoe / 100)
  let mp := (5 * doy + 2) / 153
  let d := doy - (153 * mp + 2) / 5 + 1
  let m := if mp < 10 then mp + 3 else mp - 9
  (if m ≤ 2 then y + 1 else y, m, d)

def yyyymmdd (ymd : Nat × Nat × Nat) : Nat :=
  ymd.1 * 10000 + ymd.2.1 * 100 + ymd.2.2

/-- The calendar day of the instant in the time value's own zone. -/
def localDays (t : GoTime) : Nat := ((t.sec + t.offset).toNat) / 86400

/-- The calendar day of the instant in UTC. -/
def utcDays (t : GoTime) : Nat := (t.sec.toNat) / 86400

/-- `nowToInt()` evaluated at the clock reading `t`:
`time.Now().Format("20060102")` renders the LOCAL calendar date, which
`strconv.ParseInt(..., 10, 32)` turns back into a number.  (The parse
cannot fail for any representable date before year 214748.) -/
def nowToInt (t : GoTime) : Nat := yyyymmdd (civilFromDays (localDays t))

/-- The `YYYYMMDD` encoding of the same instant's UTC date — what the
spec asserts `occured_at` to be. -/
def utcYYYYMMDD (t : GoTime) : Nat := yyyymmdd (civilFromDays (utcDays t))

/-! ## The columnar writer `InsertEvents` (server.go)

The ClickHouse connection is a parameter: `prepareErr` is the outcome of
`PrepareBatch`, `appendErr i` of the i-th `batch.Append`, `sendErr` of
`batch.Send`. -/

structure Writer where
  prepareErr : Option String := none
  appendErr : Nat → Option String := fun _ => none
  sendErr : Option String := none

/-- One bound row of the prepared `INSERT INTO events` batch, in the
column order of the statement. -/
structure Row where
  site_id : String
  occured_at : Nat
  type : String
  user_id : String
  event : String
  category : String
  referrer : String
  referrer_domain : String
  is_touch : Bool
  browser_name : String
  os_name : String
  device_type : String
  country : String
  region : String
deriving Repr, DecidableEq, Inhabited

/-- The values `batch.Append` receives for one queued event, with
`nowToInt()` evaluated at the clock reading `t` of that call. -/
def toRow (t : GoTime) (qd : QueueData) : Row :=
  { site_id := qd.tracking.siteID
    occured_at := nowToInt t
    type := qd.tracking.action.type
    user_id := qd.tracking.action.identity
    event := qd.tracking.action.event
    category := qd.tracking.action.category
    referrer := qd.tracking.action.referrer
    referrer_domain := qd.tracking.action.referrerHost
    is_touch := qd.tracking.action.isTouchDevice
    browser_name := qd.useragent.name
    os_name := qd.useragent.os
    device_type := qd.useragent.device
    country := qd.geoInfo.country
    region := qd.geoInfo.regionName }

/-- The append loop: rows are bound one by one; the first `Append` error
aborts the loop (rows already bound stay bound, the batch is never
sent).  `i` numbers the calls so that `clock i` is the i-th `nowToInt()`
reading. -/
def appendRows (clock : Nat → GoTime) (w : Writer) :
    Nat → List QueueData → List Row × Option String
  | _, [] => ([], none)
  | i, qd :: rest =>
    match w.appendErr i with
    | some e => ([], some e)
    | none =>
      let r := appendRows clock w (i + 1) rest
      (toRow (clock i) qd :: r.1, r.2)

/-- What one call of `InsertEvents` leaves behind: the queue buffer
after the drain, the drained events, the rows actually bound, and the
returned error. -/
structure InsertResult where
  newBuffer : List QueueData
  drained : List QueueData
  rows : List Row
  result : Except String Unit
deriving Repr, Inhabited

/-- `InsertEvents()`: move the whole buffer out under the write lock and
reset it to nil FIRST; then prepare the batch (on failure no row is ever
bound), bind the rows, send.  Any failure is merely returned — the
drained events are never put back. -/
def InsertEvents (clock : Nat → GoTime) (w : Writer) (buffer : List QueueData) :
    InsertResult :=
  let tmp := buffer
  let ar := appendRows clock w 0 tmp
  let rows : List Row :=
    match w.prepareErr with
    | some _ => []
    | none => ar.1
  let res : Except String Unit :=
    match w.prepareErr with
    | some e => .error e
    | none =>
      match ar.2 with
      | some e => .error e
      | none =>
        match w.sendErr with
        | some e => .error e
        | none => .ok ()
  ⟨[], tmp, rows, res⟩

/-! ## The queue consumer loop `InitQueue` (server.go)

The loop's `select` receives either a channel message carrying one
`QueueData` or a timer tick.  Each iteration is a pure step on the
buffer; the writer and the clock of a potential flush ride along on the
message.  A flush record keeps the drained batch and the writer's
verdict. -/

inductive QMsg where
  | recv (d : QueueData) (clock : Nat → GoTime) (w : Writer)
  | tick (clock : Nat → GoTime) (w : Writer)

/-- One iteration of the `for { select { ... } }` loop in `InitQueue`:
on receive, append and flush iff the new length reaches 15; on tick,
flush iff the buffer is non-empty. -/
def queueStep (buffer : List QueueData) :
    QMsg → List QueueData × List (List QueueData × Except String Unit)
  | .recv d clock w =>
    let buffer := buffer ++ [d]
    if buffer.length ≥ 15 then
      let r := InsertEvents clock w buffer
      (r.newBuffer, [(r.drained, r.result)])
    else (buffer, [])
  | .tick clock w =>
    if buffer.length > 0 then
      let r := InsertEvents clock w buffer
      (r.newBuffer, [(r.drained, r.result)])
    else (buffer, [])

/-- Run the consumer loop over a sequence of messages, collecting every
flushed batch in order. -/
def queueRun (buffer : List QueueData) :
    List QMsg → List QueueData × List (List QueueData × Except String Unit)
  | [] => (buffer, [])
  | m :: rest =>
    let s := queueStep buffer m
    let r := queueRun s.1 rest
    (r.1, s.2 ++ r.2)

/-- The events delivered on the intake channel by a message sequence. -/
def receivedEvents : List QMsg → List QueueData
  | [] => []
  | .recv d _ _ :: rest => d :: receivedEvents rest
  | .tick _ _ :: rest => receivedEvents rest

/-! ## The stats handler `ViewStats` (stats/requests.go) -/

/-- Go struct `MetricData` (the POST body): `site_id`, `start`, `end`,
`what`. -/
structure MetricData where
  siteID : String := ""
  start : Nat := 0
  stop : Nat := 0
  what : String := ""
deriving Repr, DecidableEq, Inhabited

/-- Go struct `Metric` (one result row). -/
structure Metric where
  occuredAt : Nat := 0
  value : String := ""
  count : Nat := 0
deriving Repr, DecidableEq, Inhabited

/-- Which aggregation ran: `GetPageViews` or `GetUnique`. -/
inductive StatsQuery where
  | pv
  | uv
deriving Repr, DecidableEq, Inhabited

/-- The observable outcome of `ViewStats`: HTTP status, which query (if
any) was executed, and the value handed to `json.Marshal` — `none`
models the nil slice, which marshals to `null`. -/
structure StatsResponse where
  status : Nat
  queried : Option StatsQuery
  metrics : Option (List Metric)
deriving Repr, DecidableEq, Inhabited

/-- `ViewStats(w, r)` given the decoded body and the storage layer
(`runQuery q data` is `GetPageViews`/`GetUnique`).  A body that fails to
decode is a 400.  An EMPTY `what` is replaced by "pv"; the `switch` then
runs the matching query — any OTHER unknown value matches no case, so no
query runs, `metrics` stays nil and `err` stays nil, and the handler
answers 200 with `null`. -/
def ViewStats (decoded : Except String MetricData)
    (runQuery : StatsQuery → MetricData → Except String (List Metric)) :
    StatsResponse :=
  match decoded with
  | .error _ => ⟨400, none, none⟩
  | .ok data0 =>
    let data := if data0.what.length = 0 then { data0 with what := "pv" } else data0
    let sel : Option StatsQuery :=
      if data.what = "pv" then some .pv
      else if data.what = "uv" then some .uv
      else none
    match sel with
    | some q =>
      match runQuery q data with
      | .error _ => ⟨500, some q, none⟩
      | .ok ms => ⟨200, some q, some ms⟩
    | none => ⟨200, none, none⟩

/-! ## Concrete instances used by witnesses and counterexamples -/

/-- A decodable beacon payload: the base64 of
`{"site_id":"s1","tracking":{"type":"page","identity":"v1","isTouch":false,
"ua":"UA","event":"/","category":"Page views","referrer":""}}`. -/
def samplePayload : String :=
  "eyJzaXRlX2lkIjoiczEiLCJ0cmFja2luZyI6eyJ0eXBlIjoicGFnZSIsImlkZW50aXR5IjoidjEiLCJpc1RvdWNoIjpmYWxzZSwidWEiOiJVQSIsImV2ZW50IjoiLyIsImNhdGVnb3J5IjoiUGFnZSB2aWV3cyIsInJlZmVycmVyIjoiIn19"

/-- A trivial user-agent classifier standing in for `useragent.Parse`. -/
def uaZero : String → UA := fun _ => {}

/-- A referrer-URL host extractor that always fails to parse. -/
def urlHostNone : String → Option String := fun _ => none

/-- A geo oracle whose transport always fails (connection refused). -/
def geoFailResp : String → Except String HttpResp := fun _ => .error "connection refused"

/-- A geo oracle answering 500 with a JSON body. -/
def geo500Resp : String → Except String HttpResp := fun _ => .ok ⟨500, "null"⟩

/-- A request carrying only `X-Real-IP` behind peer 9.9.9.9. -/
def realIPRequest : HttpRequest := ⟨[("X-Real-IP", "7.7.7.7")], "9.9.9.9:80"⟩

/-- A proxied request: `X-Forwarded-For: 1.2.3.4, 5.6.7.8`, peer 9.9.9.9. -/
def forwardedRequest : HttpRequest :=
  ⟨[("X-Forwarded-For", "1.2.3.4, 5.6.7.8")], "9.9.9.9:80"⟩

/-- The same value stored under the misspelled name the handler reads. -/
def misspelledRequest : HttpRequest :=
  ⟨[("X-Forward-For", "1.2.3.4, 5.6.7.8")], "9.9.9.9:80"⟩

/-- The geo fields of the enqueued event, when there is one. -/
def geoFieldsOf (t : TrackResult) : Option (String × String) :=
  t.enqueued.map (fun q => (q.geoInfo.country, q.geoInfo.regionName))

/-- A queued event with all-zero wire fields. -/
def qdSample : QueueData := ⟨{}, {}, {}⟩

/-- A clock pinned to 2024-01-01 23:00 UTC in a UTC+2 zone (local date
2024-01-02). -/
def clockCex : Nat → GoTime := fun _ => ⟨1704150000, 7200⟩

/-- A writer that never fails. -/
def writerOk : Writer := {}

/-- A writer whose `batch.Send` fails. -/
def writerSendFails : Writer := { sendErr := some "write: broken pipe" }

/-- A storage layer whose queries always succeed with one row. -/
def rqOneRow : StatsQuery → MetricData → Except String (List Metric) :=
  fun _ _ => .ok [{}]

/-- Is the JSON value an object or null (the only top-level shapes
`json.Unmarshal` accepts for a struct target)? -/
def jsonIsObjOrNull : Json → Bool
  | .null => true
  | .obj _ => true
  | _ => false

/-- A buffer of 14 queued events. -/
def buf14 : List QueueData := List.replicate 14 qdSample

/-- A buffer of 13 queued events. -/
def buf13 : List QueueData := List.replicate 13 qdSample

/-- Did the `Except` computation succeed (Go: `err == nil`)? -/
def exOk {ε α : Type} : Except ε α → Bool
  | .ok _ => true
  | .error _ => false

/-- The post-switch rendering of a query outcome in `ViewStats`: a
storage error is a 500, success marshals the rows with a 200. -/
def runOutcome (q : StatsQuery) (data : MetricData)
    (runQuery : StatsQuery → MetricData → Except String (List Metric)) :
    StatsResponse :=
  match runQuery q data with
  | .error _ => ⟨500, some q, none⟩
  | .ok ms => ⟨200, some q, some ms⟩

/-! ## Helper lemmas -/

theorem InsertEvents_newBuffer (clock : Nat → GoTime) (w : Writer)
    (buffer : List QueueData) : (InsertEvents clock w buffer).newBuffer = [] := rfl

theorem InsertEvents_drained (clock : Nat → GoTime) (w : Writer)
    (buffer : List QueueData) : (InsertEvents clock w buffer).drained = buffer := rfl

theorem InsertEvents_rows (clock : Nat → GoTime) (w : Writer)
    (buffer : List QueueData) :
    (InsertEvents clock w buffer).rows =
      match w.prepareErr with
      | some _ => []
      | none => (appendRows clock w 0 buffer).1 := rfl

theorem appendRows_cons (clock : Nat → GoTime) (w : Writer) (i : Nat)
    (qd : QueueData) (rest : List QueueData) :
    appendRows clock w i (qd :: rest) =
      match w.appendErr i with
      | some e => ([], some e)
      | none =>
        ((toRow (clock i) qd) :: (appendRows clock w (i + 1) rest).1,
          (appendRows clock w (i + 1) rest).2) := rfl

theorem appendRows_occured_at (clock : Nat → GoTime) (w : Writer) :
    ∀ (l : List QueueData) (i j : Nat) (r : Row),
      ((appendRows clock w i l).1).get? j = some r →
      r.occured_at = nowToInt (clock (i + j)) := by
  intro l
  induction l with
  | nil =>
    intro i j r h
    simp [appendRows] at h
  | cons qd rest ih =>
    intro i j r h
    rw [appendRows_cons] at h
    cases he : w.appendErr i with
    | some e =>
      rw [he] at h
      simp at h
    | none =>
      rw [he] at h
      cases j with
      | zero =>
        simp only [List.get?_cons_zero, Option.some_inj] at h
        subst h
        simp [toRow]
      | succ j =>
        simp only [List.get?_cons_succ] at h
        have hi := ih (i + 1) j r h
        rw [hi]
        have harg : i + 1 + j = i + (j + 1) := by omega
        rw [harg]

theorem receivedEvents_cons (m : QMsg) (rest : List QMsg) :
    receivedEvents (m :: rest) = receivedEvents [m] ++ receivedEvents rest := by
  cases m <;> simp [receivedEvents]

theorem queueStep_conserve (buf : List QueueData) (m : QMsg) :
    ((queueStep buf m).2.map Prod.fst).flatten ++ (queueStep buf m).1
      = buf ++ receivedEvents [m] := by
  cases m with
  | recv d clock w =>
    simp only [queueStep]
    split <;> simp [InsertEvents_newBuffer, InsertEvents_drained, receivedEvents]
  | tick clock w =>
    simp only [queueStep]
    split <;> simp [InsertEvents_newBuffer, InsertEvents_drained, receivedEvents]

theorem queueRun_conserve :
    ∀ (msgs : List QMsg) (buf : List QueueData),
      ((queueRun buf msgs).2.map Prod.fst).flatten ++ (queueRun buf msgs).1
        = buf ++ receivedEvents msgs := by
  intro msgs
  induction msgs with
  | nil => intro buf; simp [queueRun, receivedEvents]
  | cons m rest ih =>
    intro buf
    rw [receivedEvents_cons]
    unfold queueRun
    simp only [List.map_append, List.flatten_append]
    rw [List.append_assoc, ih, ← List.append_assoc, queueStep_conserve,
      List.append_assoc]

theorem queueStep_length_le (buf : List QueueData) (m : QMsg)
    (h : buf.length ≤ 14) : ((queueStep buf m).1).length ≤ 14 := by
  cases m with
  | recv d clock w =>
    simp only [queueStep]
    split
    · simp [InsertEvents_newBuffer]
    · next hlt =>
      simp only [List.length_append, List.length_singleton] at hlt ⊢
      omega
  | tick clock w =>
    simp only [queueStep]
    split
    · simp [InsertEvents_newBuffer]
    · exact h

theorem queueRun_length_le :
    ∀ (msgs : List QMsg) (buf : List QueueData), buf.length ≤ 14 →
      ((queueRun buf msgs).1).length ≤ 14 := by
  intro msgs
  induction msgs with
  | nil => intro buf h; simpa [queueRun] using h
  | cons m rest ih =>
    intro buf h
    unfold queueRun
    exact ih _ (queueStep_length_le buf m h)

theorem string_length_zero {s : String} (h : s.length = 0) : s = "" := by
  cases s with
  | mk data =>
    cases data with
    | nil => rfl
    | cons c cs => simp [String.length] at h

set_option maxRecDepth 100000

/-! ## The claims -/

/-- **C1** (counterexample): on the concrete ingest whose payload decodes
and whose client IP resolves, a failing geolocation lookup (transport
error) leaves the event UN-queued — refuting the claim that geo failure
never prevents the event from being queued. -/
theorem C1_geo_enqueue_counterexample :
    exOk (decodeData samplePayload) = true ∧
    exOk (ipFromRequest trackHeaderNames realIPRequest "") = true ∧
    exOk (getGeoInfo (geoFailResp "7.7.7.7")) = false ∧
    (track uaZero urlHostNone geoFailResp "" samplePayload realIPRequest).enqueued
      = none := by decide

/-- **C1** (amended): when `getGeoInfo` returns an error — a transport
error or an undecodable body; a non-2xx status alone is NOT an error
because the handler never checks it — the ingest handler logs and
returns WITHOUT enqueuing the event, though the response is still an
empty 200; and a 500 oracle response whose body is decodable JSON does
enqueue the event with empty geo fields. -/
theorem C1_geo_failure_drops_event
    (uaParse : String → UA) (urlHost : String → Option String)
    (geoResp : String → Except String HttpResp) (overrideIP dataParam : String)
    (r : HttpRequest)
    (hgeo : ∀ ipStr, exOk (getGeoInfo (geoResp ipStr)) = false) :
    (track uaParse urlHost geoResp overrideIP dataParam r).enqueued = none ∧
    (track uaParse urlHost geoResp overrideIP dataParam r).status = 200 ∧
    geoFieldsOf (track uaZero urlHostNone geo500Resp "" samplePayload realIPRequest)
      = some ("", "") := by
  refine ⟨?_, ?_, by decide⟩
  · unfold track
    split
    · rfl
    · cases hdec : decodeData dataParam with
      | error e => rfl
      | ok trkData =>
        dsimp only
        cases hip : ipFromRequest trackHeaderNames r overrideIP with
        | error e => rfl
        | ok ip =>
          dsimp only
          cases hok : getGeoInfo (geoResp (ipString ip)) with
          | error e => rfl
          | ok geoInfo =>
            have hb := hgeo (ipString ip)
            rw [hok] at hb
            simp [exOk] at hb
  · unfold track
    repeat' split
    all_goals rfl

/-- **C1** (witness): the amended theorem applied to the concrete
always-failing oracle. -/
theorem C1_geo_failure_drops_event_witness :
    (track uaZero urlHostNone geoFailResp "" samplePayload realIPRequest).enqueued
      = none :=
  (C1_geo_failure_drops_event uaZero urlHostNone geoFailResp "" samplePayload
    realIPRequest (fun _ => rfl)).1

/-- **C2**: the handler's header list misspells the forwarded-for name, so
a request carrying `X-Forwarded-For: 1.2.3.4, 5.6.7.8` behind peer
9.9.9.9:80 resolves to the peer 9.9.9.9, not 1.2.3.4 — and even a
request carrying the misspelled name fails, because the comma-split is
keyed on the canonical spelling and never fires. -/
theorem C2_forwarded_for_header_never_consulted :
    canonicalHeaderKey "X-Forward-For" ≠ "X-Forwarded-For" ∧
    ipFromRequest trackHeaderNames forwardedRequest "" = .ok (IP.v4 9 9 9 9) ∧
    ipFromRequest trackHeaderNames misspelledRequest ""
      = .error "could not parse IP: 1.2.3.4, 5.6.7.8" :=
  ⟨by decide, by rfl, by rfl⟩

/-- **C3** (counterexample): the base64 of `{}` — an object missing both
`site_id` and the `tracking` object — decodes WITHOUT error to the
zero-valued record, refuting the claimed rejections. -/
theorem C3_missing_fields_accepted : decodeData "e30=" = .ok ({} : Tracking) := by
  rfl

/-- **C3** (amended): the decoder rejects empty input, invalid standard
base64, and base64 of a non-object non-null JSON top level (number,
string, array, bool); but base64 of `null` and of objects missing
`site_id` and/or `tracking` decode successfully to zero-valued fields. -/
theorem C3_decoder_rejections_amended :
    exOk (decodeData "") = false ∧
    exOk (decodeData "!!!not-base64!!!") = false ∧
    exOk (decodeData "NDI=") = false ∧
    exOk (decodeData "Ingi") = false ∧
    exOk (decodeData "WzFd") = false ∧
    exOk (decodeData "dHJ1ZQ==") = false ∧
    (∀ v : Json, jsonIsObjOrNull v = false → exOk (unmarshalTracking v) = false) ∧
    decodeData "bnVsbA==" = .ok ({} : Tracking) ∧
    decodeData "eyJzaXRlX2lkIjoieCJ9" = .ok { siteID := "x" } ∧
    decodeData "eyJ0cmFja2luZyI6e319" = .ok ({} : Tracking) := by
  refine ⟨by decide, by decide, by decide, by decide, by decide, by decide, ?_,
    by rfl, by rfl, by rfl⟩
  intro v hv
  cases v <;> simp_all [jsonIsObjOrNull, unmarshalTracking, exOk]

/-- **C3** (witness): the universal rejection conjunct applied to the
concrete non-object top level `true`. -/
theorem C3_decoder_rejections_witness :
    jsonIsObjOrNull (Json.bool true) = false ∧
    exOk (unmarshalTracking (Json.bool true)) = false :=
  ⟨rfl, C3_decoder_rejections_amended.2.2.2.2.2.2.1 (Json.bool true) rfl⟩

/-- **C4** (counterexample): a row inserted at 23:00 UTC on 2024-01-01 by
a server in a UTC+2 zone gets `occured_at = 20240102`, while the UTC
`YYYYMMDD` of the insertion instant is 20240101 — refuting the claim
that `occured_at` is computed in UTC. -/
theorem C4_occured_at_not_utc :
    ((InsertEvents clockCex writerOk [qdSample]).rows.map Row.occured_at)
      = [20240102] ∧
    utcYYYYMMDD ⟨1704150000, 7200⟩ = 20240101 := by decide

/-- **C4** (amended): every row written by the columnar writer has
`occured_at` equal to the `YYYYMMDD` encoding of the insertion-time date
in the SERVER'S LOCAL time zone (`time.Now()` carries the local zone);
this agrees with UTC exactly when the server's zone offset is zero. -/
theorem C4_occured_at_local_date :
    (∀ (clock : Nat → GoTime) (w : Writer) (buf : List QueueData) (j : Nat) (r : Row),
        ((InsertEvents clock w buf).rows).get? j = some r →
        r.occured_at = yyyymmdd (civilFromDays (localDays (clock j)))) ∧
    (∀ t : GoTime, t.offset = 0 → nowToInt t = utcYYYYMMDD t) := by
  constructor
  · intro clock w buf j r h
    rw [InsertEvents_rows] at h
    cases hp : w.prepareErr with
    | some e => rw [hp] at h; simp at h
    | none =>
      rw [hp] at h
      have hrow := appendRows_occured_at clock w buf 0 j r h
      simpa [nowToInt] using hrow
  · intro t h
    simp [nowToInt, utcYYYYMMDD, localDays, utcDays, h]

/-- **C4** (witness): the amended theorem applied to the concrete
one-event batch under the UTC+2 clock. -/
theorem C4_occured_at_local_date_witness :
    ((InsertEvents clockCex writerOk [qdSample]).rows).get? 0
        = some (toRow (clockCex 0) qdSample) ∧
    (toRow (clockCex 0) qdSample).occured_at
        = yyyymmdd (civilFromDays (localDays (clockCex 0))) :=
  ⟨by decide,
    C4_occured_at_local_date.1 clockCex writerOk [qdSample] 0
      (toRow (clockCex 0) qdSample) (by decide)⟩

/-- **C5**: the size trigger fires exactly at the 15-event threshold —
an append that brings the buffer to 15 or more flushes immediately
(buffer reset, the whole batch submitted), an append that leaves it
below 15 does not flush, and a 14-event buffer IS flushed by the
10-second time trigger. -/
theorem C5_size_trigger_threshold :
    (∀ (buf : List QueueData) (d : QueueData) (clock : Nat → GoTime) (w : Writer),
        (15 ≤ (buf ++ [d]).length →
          queueStep buf (.recv d clock w)
            = ([], [(buf ++ [d], (InsertEvents clock w (buf ++ [d])).result)])) ∧
        ((buf ++ [d]).length < 15 →
          queueStep buf (.recv d clock w) = (buf ++ [d], []))) ∧
    (∀ (buf : List QueueData) (clock : Nat → GoTime) (w : Writer),
        buf.length = 14 →
        queueStep buf (.tick clock w)
          = ([], [(buf, (InsertEvents clock w buf).result)])) := by
  refine ⟨fun buf d clock w => ⟨fun h => ?_, fun h => ?_⟩, fun buf clock w h => ?_⟩
  · simp only [queueStep]
    rw [if_pos h, InsertEvents_newBuffer, InsertEvents_drained]
  · simp only [queueStep]
    rw [if_neg (by omega)]
  · simp only [queueStep]
    rw [if_pos (by omega), InsertEvents_newBuffer, InsertEvents_drained]

/-- **C5** (witness): the three trigger behaviors at concrete buffers of
14, 13 and 14 events. -/
theorem C5_size_trigger_threshold_witness :
    (15 ≤ (buf14 ++ [qdSample]).length ∧
      queueStep buf14 (.recv qdSample clockCex writerSendFails)
        = ([], [(buf14 ++ [qdSample],
            (InsertEvents clockCex writerSendFails (buf14 ++ [qdSample])).result)])) ∧
    ((buf13 ++ [qdSample]).length < 15 ∧
      queueStep buf13 (.recv qdSample clockCex writerSendFails)
        = (buf13 ++ [qdSample], [])) ∧
    (buf14.length = 14 ∧
      queueStep buf14 (.tick clockCex writerOk)
        = ([], [(buf14, (InsertEvents clockCex writerOk buf14).result)])) :=
  ⟨⟨by decide, (C5_size_trigger_threshold.1 buf14 qdSample clockCex writerSendFails).1
      (by decide)⟩,
   ⟨by decide, (C5_size_trigger_threshold.1 buf13 qdSample clockCex writerSendFails).2
      (by decide)⟩,
   ⟨by decide, C5_size_trigger_threshold.2 buf14 clockCex writerOk (by decide)⟩⟩

/-- **C6**: a flush moves the entire buffer out and resets it to empty
(whatever the writer does, including prepare/append/send failures), and
across any run of the consumer loop the flushed batches plus the final
buffer are exactly the initial buffer plus the received events, in order
— so drained events are never restored and appear in no later batch. -/
theorem C6_flush_drains_no_restore :
    (∀ (clock : Nat → GoTime) (w : Writer) (buf : List QueueData),
        (InsertEvents clock w buf).newBuffer = [] ∧
        (InsertEvents clock w buf).drained = buf) ∧
    (∀ (msgs : List QMsg) (buf : List QueueData),
        ((queueRun buf msgs).2.map Prod.fst).flatten ++ (queueRun buf msgs).1
          = buf ++ receivedEvents msgs) :=
  ⟨fun clock w buf =>
      ⟨InsertEvents_newBuffer clock w buf, InsertEvents_drained clock w buf⟩,
   fun msgs buf => queueRun_conserve msgs buf⟩

/-- **C7** (counterexample): with a storage layer that would happily
return a row, a decoded body whose `what` is the unknown value "xx"
executes NO aggregation and returns 200 with nil metrics — refuting the
claim that unknown values are treated as "pv". -/
theorem C7_unknown_what_runs_no_query :
    ViewStats (.ok { what := "xx" }) rqOneRow
      = { status := 200, queried := none, metrics := none } := by rfl

/-- **C7** (amended): only an EMPTY `what` defaults to "pv" (running the
page-view aggregation); "pv" and "uv" run their aggregations; any other
value matches no case of the switch, so no aggregation runs and the
handler answers 200 with nil metrics. -/
theorem C7_what_dispatch_amended (data : MetricData)
    (runQuery : StatsQuery → MetricData → Except String (List Metric)) :
    (data.what = "" →
      ViewStats (.ok data) runQuery
        = runOutcome .pv { data with what := "pv" } runQuery) ∧
    (data.what = "pv" →
      ViewStats (.ok data) runQuery = runOutcome .pv data runQuery) ∧
    (data.what = "uv" →
      ViewStats (.ok data) runQuery = runOutcome .uv data runQuery) ∧
    (data.what ≠ "" → data.what ≠ "pv" → data.what ≠ "uv" →
      ViewStats (.ok data) runQuery
        = { status := 200, queried := none, metrics := none }) := by
  obtain ⟨sid, st, sp, wh⟩ := data
  refine ⟨fun h => ?_, fun h => ?_, fun h => ?_, fun h1 h2 h3 => ?_⟩
  · dsimp only at h; subst h; rfl
  · dsimp only at h; subst h; rfl
  · dsimp only at h; subst h; rfl
  · dsimp only at h1 h2 h3
    have hlen : wh.length ≠ 0 := by
      intro hz
      exact h1 (string_length_zero hz)
    simp [ViewStats, hlen, h2, h3]

/-- **C7** (witness): the dispatch at the concrete bodies with `what`
empty, "uv" and "xx". -/
theorem C7_what_dispatch_witness :
    ViewStats (.ok ({ what := "" } : MetricData)) rqOneRow
        = runOutcome .pv { what := "pv" } rqOneRow ∧
    ViewStats (.ok ({ what := "uv" } : MetricData)) rqOneRow
        = runOutcome .uv { what := "uv" } rqOneRow ∧
    ViewStats (.ok ({ what := "xx" } : MetricData)) rqOneRow
        = { status := 200, queried := none, metrics := none } :=
  ⟨(C7_what_dispatch_amended _ rqOneRow).1 rfl,
   (C7_what_dispatch_amended _ rqOneRow).2.2.1 rfl,
   (C7_what_dispatch_amended _ rqOneRow).2.2.2 (by decide) (by decide) (by decide)⟩

/-- **C8** (counterexample): with the override set, resolution is NOT the
verbatim first step — an override that is not an IP literal fails even
though headers and peer are fine, and an unsplittable peer address fails
even though a valid override is set. -/
theorem C8_override_not_verbatim :
    ipFromRequest trackHeaderNames ⟨[], "1.2.3.4:80"⟩ "not-an-ip"
      = .error "could not parse IP: not-an-ip" ∧
    ipFromRequest trackHeaderNames ⟨[], "garbage"⟩ "5.6.7.8"
      = .error "missing port in address" := ⟨by rfl, by rfl⟩

/-- **C8** (amended): the override replaces the header/peer candidate as
the LAST step before parsing: provided the candidate stage succeeds (a
header matched, or the peer address splits), the resolver returns
exactly the parse of the override — which must itself parse as an IP
literal. -/
theorem C8_override_applied_last (names : List String) (r : HttpRequest)
    (ov : String) (hov : 0 < ov.length)
    (hcand : scanIPHeaders r names ≠ "" ∨ exOk (splitHostPort r.remoteAddr) = true) :
    ipFromRequest names r ov =
      match parseIP ov with
      | some ip => .ok ip
      | none => .error ("could not parse IP: " ++ ov) := by
  by_cases hs : scanIPHeaders r names = ""
  · rcases hcand with hne | hok
    · exact absurd hs hne
    · cases hsp : splitHostPort r.remoteAddr with
      | error e => rw [hsp] at hok; simp [exOk] at hok
      | ok host =>
        simp only [ipFromRequest]
        rw [if_pos hs, hsp]
        dsimp only
        rw [if_pos hov]
        cases parseIP ov <;> rfl
  · simp only [ipFromRequest]
    rw [if_neg hs]
    dsimp only
    rw [if_pos hov]
    cases parseIP ov <;> rfl

/-- **C8** (witness): the amended theorem at a concrete request whose
header candidate succeeds, with a parsable override. -/
theorem C8_override_applied_last_witness :
    0 < ("5.6.7.8" : String).length ∧
    (scanIPHeaders realIPRequest trackHeaderNames ≠ "" ∨
      exOk (splitHostPort realIPRequest.remoteAddr) = true) ∧
    ipFromRequest trackHeaderNames realIPRequest "5.6.7.8" = .ok (IP.v4 5 6 7 8) :=
  ⟨by decide, Or.inl (by decide),
    (C8_override_applied_last trackHeaderNames realIPRequest "5.6.7.8" (by decide)
      (Or.inl (by decide))).trans rfl⟩

/-- **C9**: every call of the ingest handler — missing `data`,
undecodable payload, unresolvable client IP, failing geolocation, or
full success — responds 200 OK with an empty body. -/
theorem C9_track_always_200_empty_body
    (uaParse : String → UA) (urlHost : String → Option String)
    (geoResp : String → Except String HttpResp) (overrideIP dataParam : String)
    (r : HttpRequest) :
    (track uaParse urlHost geoResp overrideIP dataParam r).status = 200 ∧
    (track uaParse urlHost geoResp overrideIP dataParam r).body = "" := by
  unfold track
  repeat' split
  all_goals exact ⟨rfl, rfl⟩

/-- **C10**: starting from the empty buffer, after any sequence of
receives and timer ticks — with ANY writer behavior, including failing
writes — the consumer's buffer holds at most 15 events. -/
theorem C10_buffer_at_most_15 (msgs : List QMsg) :
    ((queueRun [] msgs).1).length ≤ 15 :=
  le_trans (queueRun_length_le msgs [] (by simp)) (by omega)

end Pyrrhos
